import Mathlib

/- Shallow embedding of the libskylark sketching core.

   Embedded source files:
   - src/sketch/context.hpp          (context_t and the two allocation operations)
   - src/unnamed/part_000            (WZT_data_t, its constructors and operator<<)
   - src/nla/least_squares.hpp       (ApproximateLeastSquares, FastLeastSquares)
   - src/sketch/RFT_Elemental.hpp    (RFT_t apply_impl, local and [VC/VR,*] variants)
   - src/unnamed/part_001            (dense_transform_t apply_impl_vdist to local output)

   The MPI communicator, the Elemental matrix library and the Random123
   generator internals are external collaborators (spec section 1); the
   generator and the per-family value distributions are therefore carried as
   explicit function parameters: a distribution d maps (seed, counter offset)
   to a sample, exactly the counter-based contract of spec section 4.1.
   Counter arithmetic is size_t arithmetic, hence modulo 2 to the 64. -/

/-- Modulus of the 64-bit counter (the counter member of context_t is a size_t). -/
def uint64_mod : Nat := 2 ^ 64

/-- Error taxonomy raised by the embedded code (spec section 7): each constructor
    is one of the typed exceptions thrown in the sources, with its message. -/
inductive skylark_error where
  | nla_exception (msg : String)
  | sketch_exception (msg : String)
  | elemental_exception (msg : String)
  | mpi_exception (msg : String)
  | unsupported_matrix_distribution
  deriving DecidableEq, Repr

/-- context_t from src/sketch/context.hpp. The communicator handle is out of
    scope; rank and size record the process identity, the private members
    _counter and _seed hold the random stream state. -/
structure context_t where
  rank : Nat
  size : Nat
  _counter : Nat
  _seed : Int
  deriving DecidableEq, Repr

/-- The context_t constructor: counter starts at zero (context.hpp line 41). -/
def context_t.init (seed : Int) (rank : Nat) (size : Nat) : context_t :=
  ⟨rank, size, 0, seed⟩

/-- random_samples_array_t as handed out by allocate_random_samples_array:
    it records the base counter, the length, the seed and the distribution,
    and sample i is the pure function value dist seed (cbase + i), the
    counter-based generator contract (context.hpp lines 57-69). -/
structure random_samples_array_t (α : Type) where
  cbase : Nat
  len : Nat
  seedv : Int
  dist : Int → Nat → α

/-- Sample i of the array: the distribution evaluated at (seed, cbase + i),
    with 64-bit counter arithmetic. -/
def random_samples_array_t.get {α : Type} (a : random_samples_array_t α) (i : Nat) : α :=
  a.dist a.seedv ((a.cbase + i) % uint64_mod)

/-- The sample sequence of the array, in counter order. -/
def random_samples_array_t.toList {α : Type} (a : random_samples_array_t α) : List α :=
  (List.range a.len).map a.get

/-- The counter offsets reserved by the array. -/
def random_samples_array_t.offsets {α : Type} (a : random_samples_array_t α) : List Nat :=
  (List.range a.len).map (fun i => (a.cbase + i) % uint64_mod)

/-- context_t::allocate_random_samples_array (context.hpp lines 74-88):
    hands out the array rooted at the current counter and advances the
    counter by size (size_t addition, so modulo 2 to the 64). -/
def allocate_random_samples_array {α : Type} (d : Int → Nat → α) (sz : Nat)
    (ctx : context_t) : random_samples_array_t α × context_t :=
  (⟨ctx._counter, sz, ctx._seed, d⟩,
   ⟨ctx.rank, ctx.size, (ctx._counter + sz) % uint64_mod, ctx._seed⟩)

/-- random_array_t as handed out by allocate_random_array: raw integer
    samples, same counter discipline. -/
structure random_array_t where
  cbase : Nat
  len : Nat
  seedv : Int
  gen : Int → Nat → Nat

/-- Sample i of the raw array. -/
def random_array_t.get (a : random_array_t) (i : Nat) : Nat :=
  a.gen a.seedv ((a.cbase + i) % uint64_mod)

/-- The counter offsets reserved by the raw array. -/
def random_array_t.offsets (a : random_array_t) : List Nat :=
  (List.range a.len).map (fun i => (a.cbase + i) % uint64_mod)

/-- context_t::allocate_random_array (context.hpp lines 99-110): same counter
    reservation as allocate_random_samples_array. -/
def allocate_random_array (g : Int → Nat → Nat) (sz : Nat)
    (ctx : context_t) : random_array_t × context_t :=
  (⟨ctx._counter, sz, ctx._seed, g⟩,
   ⟨ctx.rank, ctx.size, (ctx._counter + sz) % uint64_mod, ctx._seed⟩)

/-- Modelled from the spec: hash_transform_data_t (its header is not under
    src; spec section 4.2, hash family): N input coordinates, S output
    coordinates, a per-coordinate target output index (row_idx) and a
    per-coordinate magnitude (row_value). -/
structure hash_transform_data_t (α : Type) where
  N : Nat
  S : Nat
  row_idx : List Nat
  row_value : List α
  deriving DecidableEq, Repr

/-- Modelled from the spec: the hash_transform_data_t constructor (spec
    section 4.2) draws, for each of the N input coordinates, a target output
    coordinate from the uniform index distribution and a magnitude from the
    family value distribution, consuming two size-N allocations from the
    context, in that order. -/
def hash_transform_data_mk {α : Type} (uDist : Int → Nat → Nat)
    (vDist : Int → Nat → α) (N S : Nat) (ctx : context_t) :
    hash_transform_data_t α × context_t :=
  let r1 := allocate_random_samples_array uDist N ctx
  let r2 := allocate_random_samples_array vDist N r1.2
  (⟨N, S, r1.1.toList, r2.1.toList⟩, r2.2)

/-- WZT_data_t (src/unnamed/part_000): the Woodruff-Zhang descriptor is the
    hash descriptor plus the regression norm parameter _P. -/
structure WZT_data_t (α : Type) extends hash_transform_data_t α where
  _P : ℚ
  deriving DecidableEq, Repr

/-- The message of the parameter range error (part_000 line 45). -/
def wzt_p_range_msg : String := "WZT parameter p has unsupported range"

/-- WZT_data_t::_populate (part_000 lines 67-82): draws N Rademacher samples
    from the context and replaces each base magnitude e by pm * (1/e)^(1/p).
    The multiplication, reciprocal and real power on the scalar type are
    carried as explicit function parameters (ValueType is a C++ floating
    type; the claims checked here do not depend on their arithmetic laws). -/
def WZT_populate {α : Type} (mul : α → α → α) (inv : α → α) (rpow : α → ℚ → α)
    (radDist : Int → Nat → α) (base : hash_transform_data_t α) (p : ℚ)
    (ctx : context_t) : WZT_data_t α × context_t :=
  let r := allocate_random_samples_array radDist base.N ctx
  let pmvals := r.1.toList
  let rv := List.zipWith (fun pm e => mul pm (rpow (inv e) (1 / p))) pmvals base.row_value
  (⟨⟨base.N, base.S, base.row_idx, rv⟩, p⟩, r.2)

/-- The main WZT_data_t constructor (part_000 lines 38-49). Per C++ semantics
    the base class constructor runs first (member initializer list), then the
    body checks p and throws, then _populate runs. The final context is
    returned alongside the outcome, because the context is a reference and
    keeps its state when the exception propagates. -/
def WZT_data_mk {α : Type} (mul : α → α → α) (inv : α → α) (rpow : α → ℚ → α)
    (uDist : Int → Nat → Nat) (vDist : Int → Nat → α) (radDist : Int → Nat → α)
    (N S : Nat) (p : ℚ) (ctx : context_t) :
    context_t × Except skylark_error (WZT_data_t α) :=
  let rb := hash_transform_data_mk uDist vDist N S ctx
  if p < 1 ∨ 2 < p then
    (rb.2, Except.error (skylark_error.sketch_exception wzt_p_range_msg))
  else
    let rp := WZT_populate mul inv rpow radDist rb.1 p rb.2
    (rp.2, Except.ok rp.1)

/-- Modelled from the spec: the structured parameter record (property tree)
    for a WZT descriptor. transform_data_t and its operator<< are not under
    src; per spec section 6 the record holds at least the family tag and the
    dimensions, and part_000 line 91 adds the key sketch.p. Only the fields
    the read constructor consumes are modelled. -/
structure ptree where
  family : String
  N : Nat
  S : Nat
  p : ℚ
  deriving DecidableEq, Repr

/-- The family tag written for the Woodruff-Zhang descriptor (part_000 line 39). -/
def wzt_family_tag : String := "WZT"

/-- operator<< for WZT_data_t (part_000 lines 85-93): writes the base
    transform record and puts sketch.p. -/
def WZT_put {α : Type} (d : WZT_data_t α) : ptree :=
  ⟨wzt_family_tag, d.N, d.S, d._P⟩

/-- The WZT_data_t constructor from a property tree (part_000 lines 51-57):
    rebuilds the base from the recorded dimensions by re-consuming the
    context, reads p from the record (without a range check) and repopulates. -/
def WZT_data_from_ptree {α : Type} (mul : α → α → α) (inv : α → α)
    (rpow : α → ℚ → α) (uDist : Int → Nat → Nat) (vDist : Int → Nat → α)
    (radDist : Int → Nat → α) (pt : ptree) (ctx : context_t) :
    WZT_data_t α × context_t :=
  let rb := hash_transform_data_mk uDist vDist pt.N pt.S ctx
  WZT_populate mul inv rpow radDist rb.1 pt.p rb.2

/-- El::Orientation values used by the least squares entry points. -/
inductive ElOrientation where
  | NORMAL
  | TRANSPOSE
  | ADJOINT
  deriving DecidableEq, Repr

/-- The message of the ApproximateLeastSquares unsupported orientation error
    (least_squares.hpp line 48). -/
def als_orientation_msg : String :=
  "Only NORMAL orientation is supported for ApproximateLeastSquares"

/-- The message of the FastLeastSquares unsupported orientation error
    (least_squares.hpp line 172). -/
def fls_orientation_msg : String :=
  "Only NORMAL orientation is supported for FastLeastSquares"

/-- The sketch size actually used by ApproximateLeastSquares
    (least_squares.hpp lines 50-51 and 113-114): the default parameter value
    -1 is replaced by 4 * Width(A), any other value is used unchanged. -/
def resolved_sketch_size (wA : Nat) (sketch_size : Int) : Int :=
  if sketch_size = -1 then 4 * (wA : Int) else sketch_size

/-- Embedding of errors of the underlying solver into the result error type:
    the facade adds no wrapping of its own, but its own orientation error is
    a distinct summand, mirroring the distinct exception kinds of spec
    section 7. -/
def sub_error_embed {ε : Type} : Except ε Unit → Except (skylark_error ⊕ ε) Unit
  | Except.ok u => Except.ok u
  | Except.error e => Except.error (Sum.inr e)

/-- One run of the sketched regression solver as invoked by the facade: the
    solver (an external component, least_squares.hpp lines 53-67) receives
    the resolved sketch size, A, B, the output X and the context, and returns
    the new context, the new X and its outcome. -/
def run_sketched_solve {αm β χ ε : Type}
    (solve : Int → αm → β → χ → context_t → context_t × χ × Except ε Unit)
    (ss : Int) (A : αm) (B : β) (X : χ) (ctx : context_t) :
    context_t × χ × Except (skylark_error ⊕ ε) Unit :=
  ((solve ss A B X ctx).1, (solve ss A B X ctx).2.1,
   sub_error_embed (solve ss A B X ctx).2.2)

/-- ApproximateLeastSquares (least_squares.hpp lines 40-68 and 102-133; the
    local and distributed overloads run the same logic, so they share this
    embedding, generic over the matrix types). A non NORMAL orientation
    throws before anything else happens; otherwise the default sketch size is
    resolved and the sketched solver runs. -/
def ApproximateLeastSquares {αm β χ ε : Type}
    (solve : Int → αm → β → χ → context_t → context_t × χ × Except ε Unit)
    (orientation : ElOrientation) (wA : Nat) (A : αm) (B : β) (X : χ)
    (ctx : context_t) (sketch_size : Int) :
    context_t × χ × Except (skylark_error ⊕ ε) Unit :=
  if orientation ≠ ElOrientation.NORMAL then
    (ctx, X, Except.error (Sum.inl (skylark_error.nla_exception als_orientation_msg)))
  else
    run_sketched_solve solve (resolved_sketch_size wA sketch_size) A B X ctx

/-- One run of the accelerated regression solver as invoked by
    FastLeastSquares (least_squares.hpp lines 174-184). -/
def run_accelerated_solve {αm β χ ε : Type}
    (solve : αm → β → χ → context_t → context_t × χ × Except ε Unit)
    (A : αm) (B : β) (X : χ) (ctx : context_t) :
    context_t × χ × Except (skylark_error ⊕ ε) Unit :=
  ((solve A B X ctx).1, (solve A B X ctx).2.1,
   sub_error_embed (solve A B X ctx).2.2)

/-- FastLeastSquares (least_squares.hpp lines 164-185): a non NORMAL
    orientation throws before anything else happens, otherwise the
    accelerated solver runs. -/
def FastLeastSquares {αm β χ ε : Type}
    (solve : αm → β → χ → context_t → context_t × χ × Except ε Unit)
    (orientation : ElOrientation) (A : αm) (B : β) (X : χ) (ctx : context_t) :
    context_t × χ × Except (skylark_error ⊕ ε) Unit :=
  if orientation ≠ ElOrientation.NORMAL then
    (ctx, X, Except.error (Sum.inl (skylark_error.sketch_exception fls_orientation_msg)))
  else
    run_accelerated_solve solve A B X ctx

/-- A local dense matrix of statically known dimensions (elem::Matrix). -/
def Mat (m n : Nat) (α : Type) : Type := Fin m → Fin n → α

/-- elem::Matrix::Set of one entry. -/
def mat_set {m n : Nat} {α : Type} (A : Mat m n α) (i : Fin m) (j : Fin n)
    (v : α) : Mat m n α :=
  fun i2 j2 => if i2 = i ∧ j2 = j then v else A i2 j2

/-- The in-place double loop shared by the RFT_t apply_impl bodies
    (RFT_Elemental.hpp lines 100-107, 121-128): outer loop over the columns
    of the output buffer, inner loop over its rows, each entry read once with
    Get and overwritten once with Set using the update function f. -/
def loop2 {m n : Nat} {α : Type} (f : Fin m → Fin n → α → α)
    (M : Mat m n α) : Mat m n α :=
  (List.finRange n).foldl
    (fun Mc j => (List.finRange m).foldl
      (fun Mr i => mat_set Mr i j (f i j (Mr i j))) Mc) M

/-- The entry transformation of the kernel feature map:
    scale * cos(v * val_scale + shift), RFT_Elemental.hpp lines 103-105.
    Multiplication, addition and cosine on the scalar type are explicit
    function parameters. -/
def rft_entry {α : Type} (mul add : α → α → α) (cosf : α → α)
    (scale val_scale shift v : α) : α :=
  mul scale (cosf (add (mul v val_scale) shift))

/-- RFT_t::apply_impl, columnwise tag (RFT_Elemental.hpp lines 94-108):
    dense projection into the S x Width(A) buffer via the underlying dense
    transform, then the in-place loop with the shift of the output row. -/
def RFT_apply_impl_colwise {N w S : Nat} {α : Type}
    (underlying : Mat N w α → Mat S w α) (mul add : α → α → α) (cosf : α → α)
    (scale val_scale : α) (shifts : Fin S → α) (A : Mat N w α) : Mat S w α :=
  loop2 (fun i _j v => rft_entry mul add cosf scale val_scale (shifts i) v)
    (underlying A)

/-- RFT_t::apply_impl, rowwise tag (RFT_Elemental.hpp lines 114-129):
    dense projection into the Height(A) x S buffer, then the in-place loop
    with the shift of the output column. -/
def RFT_apply_impl_rowwise {h N S : Nat} {α : Type}
    (underlying : Mat h N α → Mat h S α) (mul add : α → α → α) (cosf : α → α)
    (scale val_scale : α) (shifts : Fin S → α) (A : Mat h N α) : Mat h S α :=
  loop2 (fun _i j v => rft_entry mul add cosf scale val_scale (shifts j) v)
    (underlying A)

/-- A local (per-process) dense buffer with runtime dimensions, as held by a
    distributed matrix: entry lookups are bounds checked (elem::Matrix::Get
    asserts its indices), so reading outside the buffer is an error. -/
structure local_matrix (α : Type) where
  hgt : Nat
  wdt : Nat
  entry : Nat → Nat → α

/-- Bounds checked Get on a local buffer. -/
def local_matrix.getv {α : Type} (A : local_matrix α) (i j : Nat) : Option α :=
  if i < A.hgt ∧ j < A.wdt then some (A.entry i j) else none

/-- Set on a local buffer (the in-place write of the loop; the loop reads the
    entry first, so the bounds check happens on the read). -/
def local_matrix.setv {α : Type} (A : local_matrix α) (i j : Nat) (v : α) :
    local_matrix α :=
  ⟨A.hgt, A.wdt, fun i2 j2 => if i2 = i ∧ j2 = j then v else A.entry i2 j2⟩

/-- Number of global row indices below g owned by rank r in a [VC,*] or
    [VR,*] layout on a grid of P processes (round robin distribution). -/
def localHeight (g P r : Nat) : Nat :=
  ((List.range g).filter (fun i => i % P = r)).length

/-- The local buffer of rank r for a [VC,*] (or [VR,*]) distributed matrix of
    global dimensions gh x gw with entries G: local row i holds global row
    r + i * P, every column is local. -/
def vc_local {α : Type} (P r gh gw : Nat) (G : Nat → Nat → α) : local_matrix α :=
  ⟨localHeight gh P r, gw, fun i j => G (r + i * P) j⟩

/-- The in-place loop of RFT_t::apply_impl_vdist for the columnwise tag
    (RFT_Elemental.hpp lines 226-240), exactly as written: the outer loop
    runs over the columns of the local buffer Al of the distributed output,
    the inner loop runs the local row index i up to S (the global output
    dimension, base_data_t::_S), and the shift is indexed by that local row
    index. An out of bounds Get aborts the computation. -/
def rft_vdist_colwise_loop {α : Type} (S : Nat) (mul add : α → α → α)
    (cosf : α → α) (scale val_scale : α) (shifts : Nat → α)
    (Al : local_matrix α) : Option (local_matrix α) :=
  (List.range Al.wdt).foldlM
    (fun Mc j => (List.range S).foldlM
      (fun Mr i => (local_matrix.getv Mr i j).map
        (fun v => local_matrix.setv Mr i j
          (rft_entry mul add cosf scale val_scale (shifts i) v))) Mc) Al

/-- RFT_t::apply_impl_vdist, columnwise (RFT_Elemental.hpp lines 226-240),
    on rank r of a P process grid: the underlying dense transform writes the
    distributed S x gw projection (its local part on rank r is the [VC,*]
    slice of the global projection Gproj, per the layout independence of the
    dense family, spec section 4.3), then the in-place loop above runs on the
    local buffer. -/
def RFT_apply_impl_vdist_colwise {α : Type} (P r S gw : Nat)
    (Gproj : Nat → Nat → α) (mul add : α → α → α) (cosf : α → α)
    (scale val_scale : α) (shifts : Nat → α) : Option (local_matrix α) :=
  rft_vdist_colwise_loop S mul add cosf scale val_scale shifts
    (vc_local P r S gw Gproj)

/-- The in-place loop of RFT_t::apply_impl_vdist for the rowwise tag
    (RFT_Elemental.hpp lines 246-262): the outer loop runs the column index j
    up to S, the inner loop runs over the rows of the local buffer, and the
    shift is indexed by the (globally meaningful) column index j. -/
def rft_vdist_rowwise_loop {α : Type} (S : Nat) (mul add : α → α → α)
    (cosf : α → α) (scale val_scale : α) (shifts : Nat → α)
    (Al : local_matrix α) : Option (local_matrix α) :=
  (List.range S).foldlM
    (fun Mc j => (List.range Al.hgt).foldlM
      (fun Mr i => (local_matrix.getv Mr i j).map
        (fun v => local_matrix.setv Mr i j
          (rft_entry mul add cosf scale val_scale (shifts j) v))) Mc) Al

/-- dense_transform_t::apply_impl_vdist for [VC/VR,*] input and local output,
    rowwise tag (src/unnamed/part_001 lines 99-126): the distributed sketch
    is computed into an intermediate [VC/VR,*] matrix, redistributed to a
    [CIRC,CIRC] matrix (gathered at the root), and assigned into the caller
    buffer sketch_of_A only when the rank is 0. transform_apply stands for
    the distributed dense transform application and circ_gather for the
    collective redistribution, both external to this file. -/
def dense_apply_impl_vdist_rowwise {ν μ : Type} (transform_apply : ν → ν)
    (circ_gather : ν → μ) (rank : Nat) (A : ν) (sketch_of_A : μ) : μ :=
  if rank = 0 then circ_gather (transform_apply A) else sketch_of_A

/-- dense_transform_t::apply_impl_vdist, columnwise tag (src/unnamed/part_001
    lines 129-156): same shape as the rowwise variant. -/
def dense_apply_impl_vdist_columnwise {ν μ : Type} (transform_apply : ν → ν)
    (circ_gather : ν → μ) (rank : Nat) (A : ν) (sketch_of_A : μ) : μ :=
  if rank = 0 then circ_gather (transform_apply A) else sketch_of_A

/-! Theorems. -/

/-- zipWith of two maps over one list is the map of the combined function. -/
theorem list_zipWith_map_same {α β γ δ : Type} (f : β → γ → δ) (g : α → β)
    (k : α → γ) : ∀ l : List α,
    List.zipWith f (l.map g) (l.map k) = l.map (fun x => f (g x) (k x))
  | [] => rfl
  | a :: t => by
    simp only [List.map_cons, List.zipWith_cons_cons,
      list_zipWith_map_same f g k t]

/-- C2 (amended): successive allocations from one context reserve the
    counter ranges the claim names and never reuse an offset, provided the
    combined range stays below 2^64 (the counter is a size_t and wraps
    otherwise; see the counterexample). With counter c before the first
    allocation, the first allocation (of s1 samples) reserves exactly
    [c, c+s1) and leaves the counter at c+s1, the second (of s2 samples,
    here through allocate_random_array to cover both operations) reserves
    [c+s1, c+s1+s2), and the two ranges are disjoint. -/
theorem successive_allocations_disjoint {α : Type} (d : Int → Nat → α)
    (g : Int → Nat → Nat) (s1 s2 : Nat) (ctx : context_t)
    (h : ctx._counter + s1 + s2 < uint64_mod) :
    (allocate_random_samples_array d s1 ctx).1.offsets
      = List.range' ctx._counter s1 ∧
    (allocate_random_samples_array d s1 ctx).2._counter = ctx._counter + s1 ∧
    (allocate_random_array g s2 (allocate_random_samples_array d s1 ctx).2).1.offsets
      = List.range' (ctx._counter + s1) s2 ∧
    (allocate_random_array g s2 (allocate_random_samples_array d s1 ctx).2).2._counter
      = ctx._counter + s1 + s2 ∧
    List.Disjoint (allocate_random_samples_array d s1 ctx).1.offsets
      (allocate_random_array g s2 (allocate_random_samples_array d s1 ctx).2).1.offsets := by
  have hc1 : ctx._counter + s1 < uint64_mod :=
    Nat.lt_of_le_of_lt (Nat.le_add_right _ _) h
  have hcm : (ctx._counter + s1) % uint64_mod = ctx._counter + s1 :=
    Nat.mod_eq_of_lt hc1
  have ho1 : (allocate_random_samples_array d s1 ctx).1.offsets
      = List.range' ctx._counter s1 := by
    show (List.range s1).map (fun i => (ctx._counter + i) % uint64_mod)
        = List.range' ctx._counter s1
    rw [List.range'_eq_map_range]
    refine List.map_congr_left (fun i hi => ?_)
    have : ctx._counter + i < uint64_mod :=
      Nat.lt_of_lt_of_le
        (Nat.add_lt_add_left (List.mem_range.mp hi) _) (Nat.le_of_lt hc1)
    simpa using Nat.mod_eq_of_lt this
  have ho2 : (allocate_random_array g s2 (allocate_random_samples_array d s1 ctx).2).1.offsets
      = List.range' (ctx._counter + s1) s2 := by
    show (List.range s2).map
        (fun i => ((ctx._counter + s1) % uint64_mod + i) % uint64_mod)
        = List.range' (ctx._counter + s1) s2
    rw [List.range'_eq_map_range]
    refine List.map_congr_left (fun i hi => ?_)
    have : ctx._counter + s1 + i < uint64_mod :=
      Nat.lt_of_lt_of_le (Nat.add_lt_add_left (List.mem_range.mp hi) _)
        (Nat.le_of_lt h)
    simp [hcm, Nat.mod_eq_of_lt this]
  refine ⟨ho1, hcm, ho2, ?_, ?_⟩
  · show ((ctx._counter + s1) % uint64_mod + s2) % uint64_mod
        = ctx._counter + s1 + s2
    rw [hcm]
    exact Nat.mod_eq_of_lt h
  · rw [ho1, ho2]
    intro x hx1 hx2
    rcases List.mem_range'.mp hx1 with ⟨i, hi, rfl⟩
    rcases List.mem_range'.mp hx2 with ⟨i2, hi2, he⟩
    omega

/-- Witness for the amended C2 theorem at a concrete input. -/
theorem successive_allocations_disjoint_witness :
    ((⟨0, 1, 5, 9⟩ : context_t)._counter + 3 + 2 < uint64_mod) ∧
    ((allocate_random_samples_array (fun sd n => sd + n) 3 (⟨0, 1, 5, 9⟩ : context_t)).1.offsets
      = List.range' 5 3 ∧
     (allocate_random_samples_array (fun sd n => sd + n) 3 (⟨0, 1, 5, 9⟩ : context_t)).2._counter = 5 + 3 ∧
     (allocate_random_array (fun _ n => n) 2
       (allocate_random_samples_array (fun sd n => sd + n) 3 (⟨0, 1, 5, 9⟩ : context_t)).2).1.offsets
      = List.range' (5 + 3) 2 ∧
     (allocate_random_array (fun _ n => n) 2
       (allocate_random_samples_array (fun sd n => sd + n) 3 (⟨0, 1, 5, 9⟩ : context_t)).2).2._counter
      = 5 + 3 + 2 ∧
     List.Disjoint (allocate_random_samples_array (fun sd n => sd + n) 3 (⟨0, 1, 5, 9⟩ : context_t)).1.offsets
       (allocate_random_array (fun _ n => n) 2
         (allocate_random_samples_array (fun sd n => sd + n) 3 (⟨0, 1, 5, 9⟩ : context_t)).2).1.offsets) :=
  ⟨by norm_num [uint64_mod],
   successive_allocations_disjoint (fun sd n => sd + n) (fun _ n => n) 3 2
     (⟨0, 1, 5, 9⟩ : context_t) (by norm_num [uint64_mod])⟩

/-- C2 (counterexample): the claim as stated is false because the counter is
    a size_t and wraps, already at inputs every argument of which is a
    representable size_t value (each size below 2^64). From counter c = 1,
    an allocation of s1 = 2^64 - 1 samples leaves the counter at 0, not at
    c + s1 = 2^64, and the next allocation, of s2 = 2 samples, reserves
    offsets 0 and 1, reusing offset 1 of the first range: the two offset
    ranges are not disjoint. -/
theorem successive_allocations_counterexample :
    ((allocate_random_array (fun _ n => n) (2 ^ 64 - 1) (⟨0, 1, 1, 0⟩ : context_t)).2._counter
      ≠ 1 + (2 ^ 64 - 1)) ∧
    ¬ List.Disjoint
      (allocate_random_array (fun _ n => n) (2 ^ 64 - 1) (⟨0, 1, 1, 0⟩ : context_t)).1.offsets
      (allocate_random_array (fun _ n => n) 2
        (allocate_random_array (fun _ n => n) (2 ^ 64 - 1) (⟨0, 1, 1, 0⟩ : context_t)).2).1.offsets := by
  have hsum : 1 + (2 ^ 64 - 1) = 2 ^ 64 := by norm_num
  constructor
  · show (1 + (2 ^ 64 - 1)) % uint64_mod ≠ 1 + (2 ^ 64 - 1)
    rw [hsum, uint64_mod, Nat.mod_self]
    positivity
  · intro hd
    have hm1 : 1 ∈ (allocate_random_array (fun _ n => n) (2 ^ 64 - 1)
        (⟨0, 1, 1, 0⟩ : context_t)).1.offsets := by
      show 1 ∈ (List.range (2 ^ 64 - 1)).map (fun i => (1 + i) % uint64_mod)
      refine List.mem_map.mpr ⟨0, List.mem_range.mpr (by norm_num), ?_⟩
      show (1 + 0) % uint64_mod = 1
      rw [uint64_mod]
      norm_num
    have hm2 : 1 ∈ (allocate_random_array (fun _ n => n) 2
        (allocate_random_array (fun _ n => n) (2 ^ 64 - 1)
          (⟨0, 1, 1, 0⟩ : context_t)).2).1.offsets := by
      show 1 ∈ (List.range 2).map
        (fun i => ((1 + (2 ^ 64 - 1)) % uint64_mod + i) % uint64_mod)
      refine List.mem_map.mpr ⟨1, List.mem_range.mpr (by norm_num), ?_⟩
      show ((1 + (2 ^ 64 - 1)) % uint64_mod + 1) % uint64_mod = 1
      rw [hsum, uint64_mod, Nat.mod_self]
      norm_num
    exact hd hm1 hm2

/-- C3: the allocation operation is deterministic. For a fixed seed and
    counter offset, two contexts (with arbitrary, possibly different ranks,
    process counts and histories) produce the identical sample sequence,
    and sample i is the pure function value d seed ((counter + i) mod 2^64)
    of the distribution and the counter based generator input. -/
theorem allocate_deterministic {α : Type} (d : Int → Nat → α) (s : Nat)
    (ctx1 ctx2 : context_t) (hseed : ctx1._seed = ctx2._seed)
    (hctr : ctx1._counter = ctx2._counter) :
    (allocate_random_samples_array d s ctx1).1.toList
      = (allocate_random_samples_array d s ctx2).1.toList ∧
    (allocate_random_samples_array d s ctx1).1.toList
      = (List.range s).map
          (fun i => d ctx1._seed ((ctx1._counter + i) % uint64_mod)) := by
  constructor
  · show (List.range s).map _ = (List.range s).map _
    refine List.map_congr_left (fun i _ => ?_)
    simp [random_samples_array_t.get, allocate_random_samples_array, hseed, hctr]
  · rfl

/-- Witness for C3 at a concrete input: two contexts with equal seed and
    counter but different ranks, sizes and histories. -/
theorem allocate_deterministic_witness :
    ((⟨0, 4, 7, 42⟩ : context_t)._seed = (⟨3, 9, 7, 42⟩ : context_t)._seed) ∧
    ((⟨0, 4, 7, 42⟩ : context_t)._counter = (⟨3, 9, 7, 42⟩ : context_t)._counter) ∧
    ((allocate_random_samples_array (fun sd n => sd + n) 2 (⟨0, 4, 7, 42⟩ : context_t)).1.toList
      = (allocate_random_samples_array (fun sd n => sd + n) 2 (⟨3, 9, 7, 42⟩ : context_t)).1.toList ∧
     (allocate_random_samples_array (fun sd n => sd + n) 2 (⟨0, 4, 7, 42⟩ : context_t)).1.toList
      = (List.range 2).map
          (fun i => (fun (sd : Int) (n : Nat) => sd + n) (⟨0, 4, 7, 42⟩ : context_t)._seed
            (((⟨0, 4, 7, 42⟩ : context_t)._counter + i) % uint64_mod))) :=
  ⟨rfl, rfl,
   allocate_deterministic (fun sd n => sd + n) 2
     (⟨0, 4, 7, 42⟩ : context_t) (⟨3, 9, 7, 42⟩ : context_t) rfl rfl⟩

/-- C1 (amended): constructing a Woodruff-Zhang descriptor with p outside
    [1, 2] raises the parameter range error, but sampling has already
    occurred when the error is raised: per C++ semantics the base hash
    transform constructor runs before the range check in the constructor
    body, so the context returned with the error is exactly the context
    after the base construction, its counter advanced by the 2N base samples
    (and by nothing else: the N Rademacher samples of _populate are not
    drawn). -/
theorem wzt_invalid_p {α : Type} (mul : α → α → α) (inv : α → α)
    (rpow : α → ℚ → α) (uDist : Int → Nat → Nat) (vDist : Int → Nat → α)
    (radDist : Int → Nat → α) (N S : Nat) (p : ℚ) (ctx : context_t)
    (hp : p < 1 ∨ 2 < p) :
    WZT_data_mk mul inv rpow uDist vDist radDist N S p ctx
      = ((hash_transform_data_mk uDist vDist N S ctx).2,
         Except.error (skylark_error.sketch_exception wzt_p_range_msg)) ∧
    (WZT_data_mk mul inv rpow uDist vDist radDist N S p ctx).1._counter
      = ((ctx._counter + N) % uint64_mod + N) % uint64_mod := by
  have hif : WZT_data_mk mul inv rpow uDist vDist radDist N S p ctx
      = ((hash_transform_data_mk uDist vDist N S ctx).2,
         Except.error (skylark_error.sketch_exception wzt_p_range_msg)) := by
    simp only [WZT_data_mk]
    rw [if_pos hp]
  refine ⟨hif, ?_⟩
  rw [hif]
  rfl

/-- Witness for the amended C1 theorem at p = 3, N = 2, counter 5. -/
theorem wzt_invalid_p_witness :
    ((3 : ℚ) < 1 ∨ (2 : ℚ) < 3) ∧
    (WZT_data_mk (fun a b => a * b) (fun a => a) (fun a _ => a)
        (fun _ n => n) (fun sd n => sd + n) (fun _ _ => (1 : Int)) 2 1 3
        (⟨0, 1, 5, 9⟩ : context_t)
      = ((hash_transform_data_mk (fun _ n => n) (fun sd n => sd + n) 2 1
            (⟨0, 1, 5, 9⟩ : context_t)).2,
         Except.error (skylark_error.sketch_exception wzt_p_range_msg)) ∧
     (WZT_data_mk (fun a b => a * b) (fun a => a) (fun a _ => a)
        (fun _ n => n) (fun sd n => sd + n) (fun _ _ => (1 : Int)) 2 1 3
        (⟨0, 1, 5, 9⟩ : context_t)).1._counter
      = (((⟨0, 1, 5, 9⟩ : context_t)._counter + 2) % uint64_mod + 2) % uint64_mod) :=
  ⟨by norm_num,
   wzt_invalid_p (fun a b => a * b) (fun a => a) (fun a _ => a)
     (fun _ n => n) (fun sd n => sd + n) (fun _ _ => (1 : Int)) 2 1 3
     (⟨0, 1, 5, 9⟩ : context_t) (by norm_num)⟩

/-- C1 (counterexample): the claim as stated is false. At N = 2, S = 1,
    p = 3 and a context with counter 5, the constructor does raise the
    parameter range error, but the counter at that point is 9, not 5: the
    base hash transform construction sampled before the check ran. -/
theorem wzt_invalid_p_counterexample :
    ((WZT_data_mk (fun a b => a * b) (fun a => a) (fun a _ => a)
        (fun _ n => n) (fun sd n => sd + n) (fun _ _ => (1 : Int)) 2 1 3
        (⟨0, 1, 5, 9⟩ : context_t)).2
      = Except.error (skylark_error.sketch_exception wzt_p_range_msg)) ∧
    ¬ ((WZT_data_mk (fun a b => a * b) (fun a => a) (fun a _ => a)
        (fun _ n => n) (fun sd n => sd + n) (fun _ _ => (1 : Int)) 2 1 3
        (⟨0, 1, 5, 9⟩ : context_t)).1._counter
      = (⟨0, 1, 5, 9⟩ : context_t)._counter) := by
  have h3 : (3 : ℚ) < 1 ∨ (2 : ℚ) < 3 := by norm_num
  constructor
  · simp only [WZT_data_mk]
    rw [if_pos h3]
  · simp only [WZT_data_mk]
    rw [if_pos h3]
    decide

/-- C6: for a Woodruff-Zhang descriptor constructed with valid p in [1, 2],
    the stored magnitude of input coordinate i is
    sign_i * (1 / e_i) ^ (1 / p), where e_i is the exponential variate drawn
    by the base hash transform construction for coordinate i (the second of
    the two base allocations) and sign_i comes from the independent
    subsequent allocation of N Rademacher samples performed by _populate. -/
theorem wzt_magnitude_formula {α : Type} (mul : α → α → α) (inv : α → α)
    (rpow : α → ℚ → α) (uDist : Int → Nat → Nat) (vDist : Int → Nat → α)
    (radDist : Int → Nat → α) (N S : Nat) (p : ℚ) (ctx : context_t)
    (h1 : 1 ≤ p) (h2 : p ≤ 2) :
    (WZT_data_mk mul inv rpow uDist vDist radDist N S p ctx).2.map
        (fun dsc => dsc.row_value)
      = Except.ok ((List.range N).map (fun i =>
          mul (radDist ctx._seed
                ((((ctx._counter + N) % uint64_mod + N) % uint64_mod + i) % uint64_mod))
              (rpow (inv (vDist ctx._seed
                (((ctx._counter + N) % uint64_mod + i) % uint64_mod))) (1 / p)))) := by
  have hnp : ¬ (p < 1 ∨ 2 < p) := by
    push_neg
    exact ⟨h1, h2⟩
  simp only [WZT_data_mk]
  rw [if_neg hnp]
  simp only [Except.map, WZT_populate, hash_transform_data_mk,
    allocate_random_samples_array, random_samples_array_t.toList]
  rw [list_zipWith_map_same]
  rfl

/-- Witness for C6 at p = 3/2, N = 1 and concrete distributions. -/
theorem wzt_magnitude_formula_witness :
    ((1 : ℚ) ≤ 3 / 2) ∧ ((3 / 2 : ℚ) ≤ 2) ∧
    ((WZT_data_mk (fun a b => a * b) (fun a => 1 / a) (fun a _ => a * a)
        (fun _ _ => 0) (fun _ _ => (4 : ℚ)) (fun _ _ => (1 : ℚ)) 1 1 (3 / 2)
        (⟨0, 1, 0, 9⟩ : context_t)).2.map (fun dsc => dsc.row_value)
      = Except.ok ((List.range 1).map (fun i =>
          (fun a b => a * b)
            ((fun _ _ => (1 : ℚ)) (⟨0, 1, 0, 9⟩ : context_t)._seed
              (((((⟨0, 1, 0, 9⟩ : context_t)._counter + 1) % uint64_mod + 1) % uint64_mod + i) % uint64_mod))
            ((fun a _ => a * a)
              ((fun a => 1 / a)
                ((fun _ _ => (4 : ℚ)) (⟨0, 1, 0, 9⟩ : context_t)._seed
                  ((((⟨0, 1, 0, 9⟩ : context_t)._counter + 1) % uint64_mod + i) % uint64_mod)))
              (1 / (3 / 2)))))) :=
  ⟨by norm_num, by norm_num,
   wzt_magnitude_formula (fun a b => a * b) (fun a => 1 / a) (fun a _ => a * a)
     (fun _ _ => 0) (fun _ _ => (4 : ℚ)) (fun _ _ => (1 : ℚ)) 1 1 (3 / 2)
     (⟨0, 1, 0, 9⟩ : context_t) (by norm_num) (by norm_num)⟩

/-- C7: writing a Woodruff-Zhang descriptor built with valid data into a
    property tree and constructing a new descriptor from that tree, using a
    context with the same seed replayed to the same counter offset (rank and
    process count may differ), yields a descriptor with identical parameter p
    and identical per coordinate index and coefficient lists. -/
theorem wzt_ptree_round_trip {α : Type} (mul : α → α → α) (inv : α → α)
    (rpow : α → ℚ → α) (uDist : Int → Nat → Nat) (vDist : Int → Nat → α)
    (radDist : Int → Nat → α) (N S : Nat) (p : ℚ) (ctx ctx2 : context_t)
    (d : WZT_data_t α)
    (h : (WZT_data_mk mul inv rpow uDist vDist radDist N S p ctx).2 = Except.ok d)
    (hseed : ctx2._seed = ctx._seed) (hctr : ctx2._counter = ctx._counter) :
    (WZT_data_from_ptree mul inv rpow uDist vDist radDist (WZT_put d) ctx2).1 = d := by
  by_cases hp : p < 1 ∨ 2 < p
  · simp only [WZT_data_mk] at h
    rw [if_pos hp] at h
    exact absurd h (by simp)
  · simp only [WZT_data_mk] at h
    rw [if_neg hp] at h
    have hd : (WZT_populate mul inv rpow radDist
        (hash_transform_data_mk uDist vDist N S ctx).1 p
        (hash_transform_data_mk uDist vDist N S ctx).2).1 = d := by
      simpa using h
    rw [← hd]
    simp only [WZT_data_from_ptree, WZT_put, WZT_populate,
      hash_transform_data_mk, allocate_random_samples_array,
      random_samples_array_t.toList, random_samples_array_t.get]
    rw [hseed, hctr]

/-- Witness for C7 at a concrete descriptor: the rebuilt descriptor equals
    the original, including the coefficient list [9]. -/
theorem wzt_ptree_round_trip_witness :
    ((WZT_data_mk (fun a b => a * b) (fun a => a - 1) (fun a _ => a * a)
        (fun _ _ => 0) (fun _ _ => (4 : Int)) (fun _ _ => (1 : Int)) 1 1 1
        (⟨0, 1, 0, 9⟩ : context_t)).2
      = Except.ok (⟨⟨1, 1, [0], [(9 : Int)]⟩, 1⟩ : WZT_data_t Int)) ∧
    ((⟨5, 8, 0, 9⟩ : context_t)._seed = (⟨0, 1, 0, 9⟩ : context_t)._seed) ∧
    ((⟨5, 8, 0, 9⟩ : context_t)._counter = (⟨0, 1, 0, 9⟩ : context_t)._counter) ∧
    (WZT_data_from_ptree (fun a b => a * b) (fun a => a - 1) (fun a _ => a * a)
        (fun _ _ => 0) (fun _ _ => (4 : Int)) (fun _ _ => (1 : Int))
        (WZT_put (⟨⟨1, 1, [0], [(9 : Int)]⟩, 1⟩ : WZT_data_t Int))
        (⟨5, 8, 0, 9⟩ : context_t)).1
      = (⟨⟨1, 1, [0], [(9 : Int)]⟩, 1⟩ : WZT_data_t Int) := by
  have hq : (WZT_data_mk (fun a b => a * b) (fun a => a - 1) (fun a _ => a * a)
      (fun _ _ => 0) (fun _ _ => (4 : Int)) (fun _ _ => (1 : Int)) 1 1 1
      (⟨0, 1, 0, 9⟩ : context_t)).2
      = Except.ok (⟨⟨1, 1, [0], [(9 : Int)]⟩, 1⟩ : WZT_data_t Int) := by
    have hnp : ¬ ((1 : ℚ) < 1 ∨ (2 : ℚ) < 1) := by norm_num
    simp only [WZT_data_mk]
    rw [if_neg hnp]
    show Except.ok _ = _
    exact congrArg Except.ok (by decide)
  exact ⟨hq, rfl, rfl,
    wzt_ptree_round_trip (fun a b => a * b) (fun a => a - 1) (fun a _ => a * a)
      (fun _ _ => 0) (fun _ _ => (4 : Int)) (fun _ _ => (1 : Int)) 1 1 1
      (⟨0, 1, 0, 9⟩ : context_t) (⟨5, 8, 0, 9⟩ : context_t)
      (⟨⟨1, 1, [0], [(9 : Int)]⟩, 1⟩ : WZT_data_t Int) hq rfl rfl⟩

/-- The embedding of solver outcomes never produces the left (facade) error
    summand. -/
theorem sub_error_embed_ne_inl {ε : Type} (r : Except ε Unit) (k : skylark_error) :
    sub_error_embed r ≠ Except.error (Sum.inl k) := by
  cases r <;> simp [sub_error_embed]

/-- C4: both least squares entry points reject any orientation other than
    NORMAL immediately: the result is exactly the typed unsupported
    orientation error together with the untouched context and the untouched
    output matrix X, independently of A and B (which do not occur in the
    result); and with NORMAL neither function produces that error (any error
    in the result is the underlying solver error, embedded in the right
    summand). -/
theorem least_squares_orientation_check {αm β χ ε αm2 β2 χ2 ε2 : Type}
    (solveA : Int → αm → β → χ → context_t → context_t × χ × Except ε Unit)
    (solveF : αm2 → β2 → χ2 → context_t → context_t × χ2 × Except ε2 Unit)
    (o : ElOrientation) (wA : Nat) (A : αm) (B : β) (X : χ) (ctx : context_t)
    (ss : Int) (A2 : αm2) (B2 : β2) (X2 : χ2) (ctx2 : context_t) :
    (o ≠ ElOrientation.NORMAL →
      ApproximateLeastSquares solveA o wA A B X ctx ss
        = (ctx, X, Except.error (Sum.inl (skylark_error.nla_exception als_orientation_msg))) ∧
      FastLeastSquares solveF o A2 B2 X2 ctx2
        = (ctx2, X2, Except.error (Sum.inl (skylark_error.sketch_exception fls_orientation_msg)))) ∧
    (o = ElOrientation.NORMAL →
      (ApproximateLeastSquares solveA o wA A B X ctx ss).2.2
        ≠ Except.error (Sum.inl (skylark_error.nla_exception als_orientation_msg)) ∧
      (FastLeastSquares solveF o A2 B2 X2 ctx2).2.2
        ≠ Except.error (Sum.inl (skylark_error.sketch_exception fls_orientation_msg))) := by
  constructor
  · intro h
    constructor
    · simp only [ApproximateLeastSquares]
      rw [if_pos h]
    · simp only [FastLeastSquares]
      rw [if_pos h]
  · intro h
    subst h
    constructor
    · show sub_error_embed _ ≠ _
      exact sub_error_embed_ne_inl _ _
    · show sub_error_embed _ ≠ _
      exact sub_error_embed_ne_inl _ _

/-- Witness for C4 with the ADJOINT and NORMAL orientations at concrete
    solvers and inputs. -/
theorem least_squares_orientation_check_witness :
    (ApproximateLeastSquares (fun ss _ _ _ c => (c, ss, Except.ok ()) :
        Int → Int → Int → Int → context_t → context_t × Int × Except Unit Unit)
        ElOrientation.ADJOINT 3 (1 : Int) (2 : Int) (10 : Int)
        (⟨0, 1, 0, 7⟩ : context_t) (-1)
      = ((⟨0, 1, 0, 7⟩ : context_t), (10 : Int),
         Except.error (Sum.inl (skylark_error.nla_exception als_orientation_msg)))) ∧
    (FastLeastSquares (fun _ _ x c => (c, x, Except.ok ()) :
        Int → Int → Int → context_t → context_t × Int × Except Unit Unit)
        ElOrientation.ADJOINT (1 : Int) (2 : Int) (10 : Int)
        (⟨0, 1, 0, 7⟩ : context_t)
      = ((⟨0, 1, 0, 7⟩ : context_t), (10 : Int),
         Except.error (Sum.inl (skylark_error.sketch_exception fls_orientation_msg)))) ∧
    ((ApproximateLeastSquares (fun ss _ _ _ c => (c, ss, Except.ok ()) :
        Int → Int → Int → Int → context_t → context_t × Int × Except Unit Unit)
        ElOrientation.NORMAL 3 (1 : Int) (2 : Int) (10 : Int)
        (⟨0, 1, 0, 7⟩ : context_t) (-1)).2.2
      ≠ Except.error (Sum.inl (skylark_error.nla_exception als_orientation_msg))) ∧
    ((FastLeastSquares (fun _ _ x c => (c, x, Except.ok ()) :
        Int → Int → Int → context_t → context_t × Int × Except Unit Unit)
        ElOrientation.NORMAL (1 : Int) (2 : Int) (10 : Int)
        (⟨0, 1, 0, 7⟩ : context_t)).2.2
      ≠ Except.error (Sum.inl (skylark_error.sketch_exception fls_orientation_msg))) := by
  have h1 := (least_squares_orientation_check
    (fun ss _ _ _ c => (c, ss, Except.ok ()) :
        Int → Int → Int → Int → context_t → context_t × Int × Except Unit Unit)
    (fun _ _ x c => (c, x, Except.ok ()) :
        Int → Int → Int → context_t → context_t × Int × Except Unit Unit) ElOrientation.ADJOINT 3
    (1 : Int) (2 : Int) (10 : Int) (⟨0, 1, 0, 7⟩ : context_t) (-1)
    (1 : Int) (2 : Int) (10 : Int) (⟨0, 1, 0, 7⟩ : context_t)).1 (by decide)
  have h2 := (least_squares_orientation_check
    (fun ss _ _ _ c => (c, ss, Except.ok ()) :
        Int → Int → Int → Int → context_t → context_t × Int × Except Unit Unit)
    (fun _ _ x c => (c, x, Except.ok ()) :
        Int → Int → Int → context_t → context_t × Int × Except Unit Unit) ElOrientation.NORMAL 3
    (1 : Int) (2 : Int) (10 : Int) (⟨0, 1, 0, 7⟩ : context_t) (-1)
    (1 : Int) (2 : Int) (10 : Int) (⟨0, 1, 0, 7⟩ : context_t)).2 rfl
  exact ⟨h1.1, h1.2, h2.1, h2.2⟩

/-- C9: with the NORMAL orientation, ApproximateLeastSquares invokes the
    sketched solver with sketch size 4 * Width(A) when the parameter is left
    at its default value -1, and with the supplied value unchanged when it is
    not the default. -/
theorem als_sketch_size_resolution {αm β χ ε : Type}
    (solveA : Int → αm → β → χ → context_t → context_t × χ × Except ε Unit)
    (wA : Nat) (A : αm) (B : β) (X : χ) (ctx : context_t) (s : Int)
    (hs : s ≠ -1) :
    ApproximateLeastSquares solveA ElOrientation.NORMAL wA A B X ctx (-1)
      = run_sketched_solve solveA (4 * (wA : Int)) A B X ctx ∧
    ApproximateLeastSquares solveA ElOrientation.NORMAL wA A B X ctx s
      = run_sketched_solve solveA s A B X ctx := by
  constructor
  · simp [ApproximateLeastSquares, resolved_sketch_size]
  · simp [ApproximateLeastSquares, resolved_sketch_size, hs]

/-- Witness for C9 at width 5 and explicit sketch size 7: the solver is
    invoked with 20 in the default case and with 7 otherwise. -/
theorem als_sketch_size_resolution_witness :
    ((7 : Int) ≠ -1) ∧
    (ApproximateLeastSquares (fun ss _ _ _ c => (c, ss, Except.ok ()) :
        Int → Int → Int → Int → context_t → context_t × Int × Except Unit Unit)
        ElOrientation.NORMAL 5 (1 : Int) (2 : Int) (10 : Int)
        (⟨0, 1, 0, 7⟩ : context_t) (-1)
      = run_sketched_solve (fun ss _ _ _ c => (c, ss, Except.ok ()) :
        Int → Int → Int → Int → context_t → context_t × Int × Except Unit Unit)
          (4 * ((5 : Nat) : Int)) (1 : Int) (2 : Int) (10 : Int)
          (⟨0, 1, 0, 7⟩ : context_t) ∧
     ApproximateLeastSquares (fun ss _ _ _ c => (c, ss, Except.ok ()) :
        Int → Int → Int → Int → context_t → context_t × Int × Except Unit Unit)
        ElOrientation.NORMAL 5 (1 : Int) (2 : Int) (10 : Int)
        (⟨0, 1, 0, 7⟩ : context_t) 7
      = run_sketched_solve (fun ss _ _ _ c => (c, ss, Except.ok ()) :
        Int → Int → Int → Int → context_t → context_t × Int × Except Unit Unit) 7
          (1 : Int) (2 : Int) (10 : Int) (⟨0, 1, 0, 7⟩ : context_t)) :=
  ⟨by decide,
   als_sketch_size_resolution (fun ss _ _ _ c => (c, ss, Except.ok ()) :
        Int → Int → Int → Int → context_t → context_t × Int × Except Unit Unit) 5
     (1 : Int) (2 : Int) (10 : Int) (⟨0, 1, 0, 7⟩ : context_t) 7 (by decide)⟩

/-- The inner row loop of the RFT in-place transformation, run over any
    duplicate-free row list: each listed row of column j is read once and
    overwritten once with f of its original value; everything else is
    untouched. -/
theorem rft_inner_loop_eq {m n : Nat} {α : Type} (f : Fin m → Fin n → α → α)
    (j : Fin n) (L : List (Fin m)) (hL : L.Nodup) (M : Mat m n α) :
    L.foldl (fun Mr i => mat_set Mr i j (f i j (Mr i j))) M
      = fun i jj => if i ∈ L ∧ jj = j then f i j (M i jj) else M i jj := by
  induction L generalizing M with
  | nil =>
    funext i jj
    simp
  | cons a t ih =>
    have hat : a ∉ t := (List.nodup_cons.mp hL).1
    have ht : t.Nodup := (List.nodup_cons.mp hL).2
    rw [List.foldl_cons, ih ht]
    funext i jj
    by_cases hjj : jj = j
    · subst hjj
      by_cases hit : i ∈ t
      · have hia : ¬ (i = a) := fun he => hat (he ▸ hit)
        simp [hit, hia, mat_set, List.mem_cons]
      · by_cases hia : i = a
        · subst hia
          simp [hit, mat_set]
        · simp [hit, hia, mat_set, List.mem_cons]
    · simp [hjj, mat_set]

/-- The outer column loop of the RFT in-place transformation, run over any
    duplicate-free column list: each listed column is transformed pointwise. -/
theorem rft_outer_loop_eq {m n : Nat} {α : Type} (f : Fin m → Fin n → α → α)
    (C : List (Fin n)) (hC : C.Nodup) (M : Mat m n α) :
    C.foldl (fun Mc j => (List.finRange m).foldl
        (fun Mr i => mat_set Mr i j (f i j (Mr i j))) Mc) M
      = fun i j => if j ∈ C then f i j (M i j) else M i j := by
  induction C generalizing M with
  | nil =>
    funext i j
    simp
  | cons c t ih =>
    have hct : c ∉ t := (List.nodup_cons.mp hC).1
    have ht : t.Nodup := (List.nodup_cons.mp hC).2
    rw [List.foldl_cons,
      rft_inner_loop_eq f c (List.finRange m) (List.nodup_finRange m), ih ht]
    funext i j
    by_cases hjt : j ∈ t
    · have hjc : ¬ (j = c) := fun he => hct (he ▸ hjt)
      simp [hjt, hjc, List.mem_finRange, List.mem_cons]
    · by_cases hjc : j = c
      · subst hjc
        simp [hjt, List.mem_finRange]
      · simp [hjt, hjc, List.mem_cons]

/-- The full in-place double loop transforms every entry exactly once. -/
theorem loop2_eq {m n : Nat} {α : Type} (f : Fin m → Fin n → α → α)
    (M : Mat m n α) : loop2 f M = fun i j => f i j (M i j) := by
  show (List.finRange n).foldl _ M = _
  rw [rft_outer_loop_eq f (List.finRange n) (List.nodup_finRange n) M]
  funext i j
  simp [List.mem_finRange]

/-- C5: applying a kernel random feature transform equals performing the
    underlying dense projection and then replacing every entry v of the
    projected buffer, in place and exactly once (the loop model writes each
    cell of the single buffer once, with no second buffer), by
    scale * cos(v * val_scale + shift k), where k is the output row index
    for columnwise application and the output column index for rowwise
    application. -/
theorem rft_apply_is_projection_then_map {N w S h : Nat} {α : Type}
    (underlyingC : Mat N w α → Mat S w α) (underlyingR : Mat h N α → Mat h S α)
    (mul add : α → α → α) (cosf : α → α) (scale val_scale : α)
    (shifts : Fin S → α) (A : Mat N w α) (AR : Mat h N α) :
    RFT_apply_impl_colwise underlyingC mul add cosf scale val_scale shifts A
      = (fun i j => rft_entry mul add cosf scale val_scale (shifts i)
          (underlyingC A i j)) ∧
    RFT_apply_impl_rowwise underlyingR mul add cosf scale val_scale shifts AR
      = (fun i j => rft_entry mul add cosf scale val_scale (shifts j)
          (underlyingR AR i j)) :=
  ⟨loop2_eq _ _, loop2_eq _ _⟩

/-- C8 (failing evaluation): on a grid of P = 2 processes, rank 0, a
    descriptor with S = 2 output rows and a one column input, the columnwise
    distributed RFT specialization aborts with an out of bounds read: its
    local buffer holds localHeight = 1 of the S = 2 distributed output rows,
    but the loop reads local row indices up to S. (On a single process grid
    the local buffer is the whole matrix and the same loop reproduces the
    local specialization; with more than one process it reads past the local
    buffer and indexes the shift table by local instead of global row.) -/
theorem rft_vdist_colwise_out_of_bounds :
    RFT_apply_impl_vdist_colwise 2 0 2 1 (fun _ _ => (0 : Int))
      (fun a b => a * b) (fun a b => a + b) (fun v => v) 1 1 (fun _ => 0)
      = none := by
  rfl

/-- C10: the dense transform specialization with [VC/VR,*] distributed input
    and local output assigns the gathered sketch into the caller buffer only
    on rank 0; on every other rank the caller supplied output matrix is
    returned completely unchanged, for both the rowwise and the columnwise
    implementation. -/
theorem dense_vdist_local_frame {ν μ : Type} (transform_apply : ν → ν)
    (circ_gather : ν → μ) (rank : Nat) (A : ν) (sketch_of_A : μ) :
    (rank ≠ 0 →
      dense_apply_impl_vdist_rowwise transform_apply circ_gather rank A sketch_of_A
        = sketch_of_A ∧
      dense_apply_impl_vdist_columnwise transform_apply circ_gather rank A sketch_of_A
        = sketch_of_A) ∧
    (rank = 0 →
      dense_apply_impl_vdist_rowwise transform_apply circ_gather rank A sketch_of_A
        = circ_gather (transform_apply A) ∧
      dense_apply_impl_vdist_columnwise transform_apply circ_gather rank A sketch_of_A
        = circ_gather (transform_apply A)) := by
  constructor
  · intro h
    exact ⟨if_neg h, if_neg h⟩
  · intro h
    exact ⟨if_pos h, if_pos h⟩

/-- Witness for C10 on ranks 3 and 0 with concrete data. -/
theorem dense_vdist_local_frame_witness :
    ((3 : Nat) ≠ 0) ∧
    (dense_apply_impl_vdist_rowwise (fun a => a + 1) (fun a => a * 2) 3
        (5 : Int) (9 : Int) = (9 : Int) ∧
     dense_apply_impl_vdist_columnwise (fun a => a + 1) (fun a => a * 2) 3
        (5 : Int) (9 : Int) = (9 : Int)) ∧
    (dense_apply_impl_vdist_rowwise (fun a => a + 1) (fun a => a * 2) 0
        (5 : Int) (9 : Int) = (fun a => a * 2) ((fun a => a + 1) (5 : Int)) ∧
     dense_apply_impl_vdist_columnwise (fun a => a + 1) (fun a => a * 2) 0
        (5 : Int) (9 : Int) = (fun a => a * 2) ((fun a => a + 1) (5 : Int))) :=
  ⟨by decide,
   (dense_vdist_local_frame (fun a => a + 1) (fun a => a * 2) 3
     (5 : Int) (9 : Int)).1 (by decide),
   (dense_vdist_local_frame (fun a => a + 1) (fun a => a * 2) 0
     (5 : Int) (9 : Int)).2 rfl⟩
